import Mathlib

/-!
Verification development for the CPace PAKE implementation (`src/lib.rs`).

The protocol engine is embedded shallowly: byte strings are `List Nat`,
the external group adapter (Ristretto255 points and scalars), the external
incremental hash (SHA-512) and the random source are abstracted into a
`Prims` structure, and the algebraic laws the protocol relies on appear as
explicit hypotheses of the theorems.  Randomness (the session id and the
64 wide bytes each role reduces to its ephemeral scalar) is passed in as
explicit arguments, mirroring the bytes `getrandom` writes in the source.
-/

namespace CPaceSpec

set_option maxRecDepth 8192

/-- Byte-size constants from the source. -/
def SESSION_ID_BYTES : Nat := 16

def STEP1_PACKET_BYTES : Nat := 16 + 32

def STEP2_PACKET_BYTES : Nat := 32

def SHARED_KEY_BYTES : Nat := 32

/-- Domain-separation tag for generator derivation (`DSI1` in the source). -/
def DSI1 : String := "CPaceRistretto255-1"

/-- Domain-separation tag for finalization (`DSI2` in the source). -/
def DSI2 : String := "CPaceRistretto255-1"

/-- Byte sequence of an ASCII string (the two DSI constants are ASCII, so
the character codes coincide with the UTF-8 bytes hashed by the source). -/
def strBytes (s : String) : List Nat := s.data.map Char.toNat

def dsi1Bytes : List Nat := strBytes DSI1

def dsi2Bytes : List Nat := strBytes DSI2

/-- Internal block size of the external hash (`hmac_sha512::BLOCKBYTES`). -/
def BLOCKBYTES : Nat := 128

/-- Modulus of Rust `usize` arithmetic on the 64-bit targets the crate builds for. -/
def USIZE : Nat := 2 ^ 64

/-- The external collaborators, abstracted: group element and scalar types,
the 64-byte hash, hash-to-group, scalar multiplication of a point, scalar
arithmetic, canonical (de)compression and wide scalar reduction. -/
structure Prims where
  Point : Type
  Scalar : Type
  hashFinalize : List Nat → List Nat
  fromUniform : List Nat → Point
  smul : Point → Scalar → Point
  scalarMul : Scalar → Scalar → Scalar
  compress : Point → List Nat
  decompress : List Nat → Option Point
  scalarOfWide : List Nat → Scalar

/-- The crate's error enum. -/
inductive Error where
  | Overflow : String → Error
  | Random : Error
  | InvalidPublicKey : Error
deriving DecidableEq

/-- The pair of derived 32-byte keys. -/
structure SharedKeys where
  k1 : List Nat
  k2 : List Nat
deriving DecidableEq

/-- The protocol context `CPace { session_id, p, r }`. -/
structure CPace (P : Prims) where
  session_id : List Nat
  p : P.Point
  r : P.Scalar

/-- `Step1Out { ctx, step1_packet }`. -/
structure Step1Out (P : Prims) where
  ctx : CPace P
  step1_packet : List Nat

/-- `Step2Out { shared_keys, step2_packet }`. -/
structure Step2Out (P : Prims) where
  shared_keys : SharedKeys
  step2_packet : List Nat

/-- Incremental hash state: the bytes accumulated by `update` calls. -/
structure Hash where
  data : List Nat

def Hash.new : Hash := ⟨[]⟩

def Hash.update (st : Hash) (b : List Nat) : Hash := ⟨st.data ++ b⟩

/-- `zpad.len().wrapping_sub(DSI1.len() + password.len()) & (zpad.len() - 1)`,
with `usize` wrapping subtraction made explicit. -/
def padLen (passwordLen : Nat) : Nat :=
  ((BLOCKBYTES + USIZE - (dsi1Bytes.length + passwordLen) % USIZE) % USIZE) &&& (BLOCKBYTES - 1)

/-- The byte sequence `CPace::new` feeds to the incremental hash: the chain of
`st.update(...)` calls, in source order, starting from `Hash::new()`; the
`as u8` casts on the identity lengths are the `% 256` truncations. -/
def CPace.hashInput (session_id password id_a id_b : List Nat) (ad : Option (List Nat)) :
    List Nat :=
  (((((((((Hash.new.update dsi1Bytes).update password).update
    ((List.replicate BLOCKBYTES 0).take (padLen password.length))).update
    session_id).update [id_a.length % 256]).update id_a).update [id_b.length % 256]).update
    id_b).update (ad.getD [])).data

/-- `CPace::new`: overflow check on the identities, generator derivation from
the hash, wide reduction of the 64 random bytes to the ephemeral scalar `r`,
and `p *= r`. -/
def CPace.new (P : Prims) (session_id password id_a id_b : List Nat)
    (ad : Option (List Nat)) (random64 : List Nat) : Except Error (CPace P) :=
  if id_a.length > 0xff ∨ id_b.length > 0xff then
    .error (.Overflow "Identifiers must be at most 255 bytes long")
  else
    .ok { session_id := session_id
          p := P.smul (P.fromUniform
                (P.hashFinalize (CPace.hashInput session_id password id_a id_b ad)))
              (P.scalarOfWide random64)
          r := P.scalarOfWide random64 }

/-- `CPace::finalize`: `p = op * r`, hash `(DSI2, compress p, compress ya,
compress yb)` and split the 64-byte digest into `k1 = h[..32]`, `k2 = h[32..]`. -/
def CPace.finalizeData (P : Prims) (c : CPace P) (op ya yb : P.Point) : List Nat :=
  ((((Hash.new.update dsi2Bytes).update (P.compress (P.smul op c.r))).update
    (P.compress ya)).update (P.compress yb)).data

def CPace.finalize (P : Prims) (c : CPace P) (op ya yb : P.Point) :
    Except Error SharedKeys :=
  .ok { k1 := (P.hashFinalize (CPace.finalizeData P c op ya yb)).take SHARED_KEY_BYTES
        k2 := (P.hashFinalize (CPace.finalizeData P c op ya yb)).drop SHARED_KEY_BYTES }

/-- `CPace::step1`: the 16 random session-id bytes and the 64 random wide
scalar bytes are explicit arguments; the packet is `session_id ‖ compress p`. -/
def CPace.step1 (P : Prims) (password id_a id_b : List Nat) (ad : Option (List Nat))
    (session_id random64 : List Nat) : Except Error (Step1Out P) :=
  match CPace.new P session_id password id_a id_b ad random64 with
  | .error e => .error e
  | .ok ctx => .ok { ctx := ctx, step1_packet := ctx.session_id ++ P.compress ctx.p }

/-- `CPace::step2`: split the received packet, rebuild the context, emit the
compressed own element, decode the peer element and finalize with
`(op := ya, Y_A := ya, Y_B := ctx.p)`. -/
def CPace.step2 (P : Prims) (step1_packet : List Nat) (password id_a id_b : List Nat)
    (ad : Option (List Nat)) (random64 : List Nat) : Except Error (Step2Out P) :=
  match CPace.new P (step1_packet.take SESSION_ID_BYTES) password id_a id_b ad random64 with
  | .error e => .error e
  | .ok ctx =>
    match P.decompress (step1_packet.drop SESSION_ID_BYTES) with
    | none => .error .InvalidPublicKey
    | some ya =>
      match CPace.finalize P ctx ya ya ctx.p with
      | .error e => .error e
      | .ok shared_keys =>
        .ok { shared_keys := shared_keys, step2_packet := P.compress ctx.p }

/-- `CPace::step3`: decode the peer element and finalize with
`(op := yb, Y_A := self.p, Y_B := yb)`. -/
def CPace.step3 (P : Prims) (c : CPace P) (step2_packet : List Nat) :
    Except Error SharedKeys :=
  match P.decompress step2_packet with
  | none => .error .InvalidPublicKey
  | some yb => CPace.finalize P c yb c.p yb

/-- `Step1Out::step3` delegates to the retained context. -/
def Step1Out.step3 (P : Prims) (s : Step1Out P) (step2_packet : List Nat) :
    Except Error SharedKeys :=
  CPace.step3 P s.ctx step2_packet

/-! ## A small concrete instance of the external primitives

Used to exhibit concrete runs.  The group is `ZMod 5` (written additively in
the protocol's reading, multiplicatively here as scalar action `p * r`); the
compressed encoding is 32 bytes whose last byte is `val + 1`, so the all-zero
32 bytes is not the encoding of any element and fails decompression, matching
the spec's description of the external decoder rejecting it. -/

def toyCompress (x : ZMod 5) : List Nat := List.replicate 31 0 ++ [x.val + 1]

/-- Modelled from the spec: the source only calls the external
`CompressedRistretto::decompress`, whose code is not part of this repository;
per the spec's interface, decompression strictly validates and in particular
an all-zero 32 bytes fails to decode. -/
def toyDecompress (b : List Nat) : Option (ZMod 5) :=
  if b.length = 32 ∧ b.take 31 = List.replicate 31 0 then
    match b.getLast? with
    | some (Nat.succ k) => if k < 5 then some (k : ZMod 5) else none
    | _ => none
  else none

def toyHash (l : List Nat) : List Nat :=
  (List.range 64).map (fun i => (i + l.sum + l.length) % 256)

@[reducible] def toyPrims : Prims where
  Point := ZMod 5
  Scalar := ZMod 5
  hashFinalize := toyHash
  fromUniform := fun l => (l.sum : ZMod 5)
  smul := fun p r => p * r
  scalarMul := fun a b => a * b
  compress := toyCompress
  decompress := toyDecompress
  scalarOfWide := fun l => (l.sum : ZMod 5)

/-! ## Helper lemmas -/

theorem dsi1Bytes_length : dsi1Bytes.length = 19 := by decide

theorem padLen_eq_mod (n : Nat) : padLen n = (BLOCKBYTES - (dsi1Bytes.length + n) % BLOCKBYTES) % BLOCKBYTES := by
  unfold padLen BLOCKBYTES USIZE
  rw [dsi1Bytes_length]
  have hand : ∀ x : Nat, x &&& (128 - 1) = x % 128 := by
    intro x
    have h := Nat.and_pow_two_sub_one_eq_mod x 7
    norm_num at h ⊢
    exact h
  rw [hand]
  omega

theorem padLen_lt (n : Nat) : padLen n < BLOCKBYTES := by
  rw [padLen_eq_mod]
  exact Nat.mod_lt _ (by norm_num [BLOCKBYTES])

theorem new_ok (P : Prims) (sid pw ia ib : List Nat) (ad : Option (List Nat)) (r64 : List Nat)
    (hia : ia.length ≤ 255) (hib : ib.length ≤ 255) :
    CPace.new P sid pw ia ib ad r64 =
      .ok { session_id := sid
            p := P.smul (P.fromUniform (P.hashFinalize (CPace.hashInput sid pw ia ib ad)))
                  (P.scalarOfWide r64)
            r := P.scalarOfWide r64 } := by
  unfold CPace.new
  rw [if_neg]
  rintro (h | h) <;> omega

/-! ## Claims -/

/-- Claim C6: for every password, the zero-padding length satisfies
`len(DSI1) + len(password) + pad_len ≡ 0 (mod BLOCKBYTES)` and
`pad_len < BLOCKBYTES`. -/
theorem c6_padding_invariant (password : List Nat) :
    (dsi1Bytes.length + password.length + padLen password.length) % BLOCKBYTES = 0
    ∧ padLen password.length < BLOCKBYTES := by
  constructor
  · rw [padLen_eq_mod, dsi1Bytes_length]
    unfold BLOCKBYTES
    omega
  · exact padLen_lt password.length

/-- Claim C9: the generator-derivation tag `DSI1` and the finalization tag
`DSI2` are textually identical constants, both equal to
`"CPaceRistretto255-1"`. -/
theorem c9_dsi_tags_identical :
    DSI1 = DSI2 ∧ DSI1 = "CPaceRistretto255-1" ∧ DSI2 = "CPaceRistretto255-1" :=
  ⟨rfl, rfl, rfl⟩

/-- Claim C1: for every password, identities of at most 255 bytes, optional
associated data and every choice of the random values (the 16-byte session id
and the wide random bytes reduced to the two ephemeral scalars), running the
initiator's step1, feeding its packet to the responder's step2, and feeding
the responder's packet to the initiator's step3 succeeds and yields
`SharedKeys` with identical `k1` and `k2` on both sides; the external group
adapter is assumed to round-trip compression and to have a commuting scalar
action. -/
theorem c1_agreement (P : Prims)
    (hdc : ∀ x, P.decompress (P.compress x) = some x)
    (hcomm : ∀ p a b, P.smul (P.smul p a) b = P.smul (P.smul p b) a)
    (pw ia ib sid rA64 rB64 : List Nat) (ad : Option (List Nat))
    (hia : ia.length ≤ 255) (hib : ib.length ≤ 255)
    (hsid : sid.length = SESSION_ID_BYTES) :
    ∃ (out1 : Step1Out P) (out2 : Step2Out P) (sk : SharedKeys),
      CPace.step1 P pw ia ib ad sid rA64 = .ok out1 ∧
      CPace.step2 P out1.step1_packet pw ia ib ad rB64 = .ok out2 ∧
      Step1Out.step3 P out1 out2.step2_packet = .ok sk ∧
      sk.k1 = out2.shared_keys.k1 ∧ sk.k2 = out2.shared_keys.k2 := by
  obtain ⟨g, hg⟩ : ∃ g, g = P.fromUniform (P.hashFinalize (CPace.hashInput sid pw ia ib ad)) :=
    ⟨_, rfl⟩
  obtain ⟨rA, hrA⟩ : ∃ x, x = P.scalarOfWide rA64 := ⟨_, rfl⟩
  obtain ⟨rB, hrB⟩ : ∃ x, x = P.scalarOfWide rB64 := ⟨_, rfl⟩
  have hnewA := new_ok P sid pw ia ib ad rA64 hia hib
  have hnewB := new_ok P sid pw ia ib ad rB64 hia hib
  rw [← hg, ← hrA] at hnewA
  rw [← hg, ← hrB] at hnewB
  have h1 : CPace.step1 P pw ia ib ad sid rA64 =
      .ok ⟨⟨sid, P.smul g rA, rA⟩, sid ++ P.compress (P.smul g rA)⟩ := by
    unfold CPace.step1
    rw [hnewA]
  have htake : (sid ++ P.compress (P.smul g rA)).take SESSION_ID_BYTES = sid :=
    List.take_left' hsid
  have hdrop : (sid ++ P.compress (P.smul g rA)).drop SESSION_ID_BYTES =
      P.compress (P.smul g rA) := List.drop_left' hsid
  have h2 : CPace.step2 P (sid ++ P.compress (P.smul g rA)) pw ia ib ad rB64 =
      .ok ⟨⟨(P.hashFinalize (CPace.finalizeData P ⟨sid, P.smul g rB, rB⟩
               (P.smul g rA) (P.smul g rA) (P.smul g rB))).take SHARED_KEY_BYTES,
            (P.hashFinalize (CPace.finalizeData P ⟨sid, P.smul g rB, rB⟩
               (P.smul g rA) (P.smul g rA) (P.smul g rB))).drop SHARED_KEY_BYTES⟩,
           P.compress (P.smul g rB)⟩ := by
    unfold CPace.step2
    rw [htake, hdrop, hnewB, hdc]
    rfl
  have h3 : Step1Out.step3 P ⟨⟨sid, P.smul g rA, rA⟩, sid ++ P.compress (P.smul g rA)⟩
      (P.compress (P.smul g rB)) =
      .ok ⟨(P.hashFinalize (CPace.finalizeData P ⟨sid, P.smul g rA, rA⟩
              (P.smul g rB) (P.smul g rA) (P.smul g rB))).take SHARED_KEY_BYTES,
           (P.hashFinalize (CPace.finalizeData P ⟨sid, P.smul g rA, rA⟩
              (P.smul g rB) (P.smul g rA) (P.smul g rB))).drop SHARED_KEY_BYTES⟩ := by
    unfold Step1Out.step3 CPace.step3
    rw [hdc]
    rfl
  have hKey : CPace.finalizeData P ⟨sid, P.smul g rA, rA⟩
        (P.smul g rB) (P.smul g rA) (P.smul g rB) =
      CPace.finalizeData P ⟨sid, P.smul g rB, rB⟩
        (P.smul g rA) (P.smul g rA) (P.smul g rB) := by
    unfold CPace.finalizeData
    rw [hcomm g rB rA]
  refine ⟨_, _, _, h1, h2, h3, ?_, ?_⟩
  · dsimp only
    rw [hKey]
  · dsimp only
    rw [hKey]

theorem finalizeData_eq (P : Prims) (c : CPace P) (op ya yb : P.Point) :
    CPace.finalizeData P c op ya yb =
      dsi2Bytes ++ P.compress (P.smul op c.r) ++ P.compress ya ++ P.compress yb := by
  simp [CPace.finalizeData, Hash.new, Hash.update]

theorem step3_decompress_none (P : Prims) (c : CPace P) (pkt : List Nat)
    (h : P.decompress pkt = none) :
    CPace.step3 P c pkt = .error .InvalidPublicKey := by
  unfold CPace.step3
  rw [h]

theorem step2_decompress_none (P : Prims) (pkt pw ia ib : List Nat) (ad : Option (List Nat))
    (r64 : List Nat) (hia : ia.length ≤ 255) (hib : ib.length ≤ 255)
    (h : P.decompress (pkt.drop SESSION_ID_BYTES) = none) :
    CPace.step2 P pkt pw ia ib ad r64 = .error .InvalidPublicKey := by
  unfold CPace.step2
  rw [new_ok P (pkt.take SESSION_ID_BYTES) pw ia ib ad r64 hia hib, h]

/-- Claim C2: a Step2 packet that fails decompression — in particular the
all-zero 32 bytes, which the spec's group-adapter interface rejects — makes
step3 return `Error::InvalidPublicKey` and never a `SharedKeys`; symmetrically
step2 fails with `Error::InvalidPublicKey` when the element field of the
received Step1 packet fails decompression. -/
theorem c2_invalid_peer_element (P : Prims) (s : Step1Out P)
    (hzero : P.decompress (List.replicate STEP2_PACKET_BYTES 0) = none) :
    Step1Out.step3 P s (List.replicate STEP2_PACKET_BYTES 0) = .error .InvalidPublicKey
    ∧ (∀ sk, Step1Out.step3 P s (List.replicate STEP2_PACKET_BYTES 0) ≠ .ok sk)
    ∧ (∀ pkt, P.decompress pkt = none →
        Step1Out.step3 P s pkt = .error .InvalidPublicKey
        ∧ ∀ sk, Step1Out.step3 P s pkt ≠ .ok sk)
    ∧ (∀ pkt pw ia ib ad r64, ia.length ≤ 255 → ib.length ≤ 255 →
        P.decompress (pkt.drop SESSION_ID_BYTES) = none →
        CPace.step2 P pkt pw ia ib ad r64 = .error .InvalidPublicKey
        ∧ ∀ out2, CPace.step2 P pkt pw ia ib ad r64 ≠ .ok out2) := by
  have h3 : ∀ pkt, P.decompress pkt = none →
      Step1Out.step3 P s pkt = .error .InvalidPublicKey := by
    intro pkt h
    unfold Step1Out.step3
    exact step3_decompress_none P s.ctx pkt h
  refine ⟨h3 _ hzero, ?_, ?_, ?_⟩
  · intro sk h
    rw [h3 _ hzero] at h
    exact Except.noConfusion h
  · intro pkt h
    refine ⟨h3 pkt h, ?_⟩
    intro sk hk
    rw [h3 pkt h] at hk
    exact Except.noConfusion hk
  · intro pkt pw ia ib ad r64 hia hib h
    refine ⟨step2_decompress_none P pkt pw ia ib ad r64 hia hib h, ?_⟩
    intro out2 hk
    rw [step2_decompress_none P pkt pw ia ib ad r64 hia hib h] at hk
    exact Except.noConfusion hk

/-- Concrete run of the invalid-element theorem: all-zero Step2 packet into
step3, and a Step1 packet with all-zero element field into step2, on the toy
primitives. -/
theorem c2_invalid_peer_element_witness :
    Step1Out.step3 toyPrims ⟨⟨List.replicate 16 0, 1, 1⟩, []⟩ (List.replicate STEP2_PACKET_BYTES 0)
      = .error .InvalidPublicKey
    ∧ CPace.step2 toyPrims (List.replicate 16 1 ++ List.replicate 32 0) [7] [1] [2] none [11]
      = .error .InvalidPublicKey := by
  have h := c2_invalid_peer_element toyPrims ⟨⟨List.replicate 16 0, 1, 1⟩, []⟩
    (by decide : toyDecompress (List.replicate 32 0) = none)
  exact ⟨h.1, (h.2.2.2 (List.replicate 16 1 ++ List.replicate 32 0) [7] [1] [2] none [11]
    (by decide) (by decide)
    (by decide : toyDecompress ((List.replicate 16 1 ++ List.replicate 32 0).drop 16) = none)).1⟩

/-- Claim C3: both roles feed the finalization hash the two public elements in
the same fixed initiator-then-responder order: a successful step2 derives its
keys from the digest of (DSI2, K, Y_A = element decoded from the received
Step1 packet, Y_B = own freshly computed element), and a successful step3 from
the digest of (DSI2, K, Y_A = own stored element, Y_B = element decoded from
the received Step2 packet). -/
theorem c3_role_order (P : Prims) :
    (∀ pkt pw ia ib r64 (ad : Option (List Nat)) (out2 : Step2Out P),
      CPace.step2 P pkt pw ia ib ad r64 = .ok out2 →
      ∃ (ctx : CPace P) (ya : P.Point),
        CPace.new P (pkt.take SESSION_ID_BYTES) pw ia ib ad r64 = .ok ctx
        ∧ P.decompress (pkt.drop SESSION_ID_BYTES) = some ya
        ∧ out2.shared_keys.k1 = (P.hashFinalize (dsi2Bytes ++ P.compress (P.smul ya ctx.r)
            ++ P.compress ya ++ P.compress ctx.p)).take SHARED_KEY_BYTES
        ∧ out2.shared_keys.k2 = (P.hashFinalize (dsi2Bytes ++ P.compress (P.smul ya ctx.r)
            ++ P.compress ya ++ P.compress ctx.p)).drop SHARED_KEY_BYTES)
    ∧ (∀ (c : CPace P) pkt (sk : SharedKeys),
      CPace.step3 P c pkt = .ok sk →
      ∃ yb : P.Point,
        P.decompress pkt = some yb
        ∧ sk.k1 = (P.hashFinalize (dsi2Bytes ++ P.compress (P.smul yb c.r)
            ++ P.compress c.p ++ P.compress yb)).take SHARED_KEY_BYTES
        ∧ sk.k2 = (P.hashFinalize (dsi2Bytes ++ P.compress (P.smul yb c.r)
            ++ P.compress c.p ++ P.compress yb)).drop SHARED_KEY_BYTES) := by
  constructor
  · intro pkt pw ia ib r64 ad out2 h
    unfold CPace.step2 at h
    split at h
    · exact absurd h (by simp)
    · rename_i ctx hn
      split at h
      · exact absurd h (by simp)
      · rename_i ya hd
        simp only [CPace.finalize] at h
        obtain rfl := (Except.ok.inj h).symm
        refine ⟨ctx, ya, hn, hd, ?_, ?_⟩
        · dsimp only
          rw [finalizeData_eq]
        · dsimp only
          rw [finalizeData_eq]
  · intro c pkt sk h
    unfold CPace.step3 at h
    split at h
    · exact absurd h (by simp)
    · rename_i yb hd
      simp only [CPace.finalize] at h
      obtain rfl := (Except.ok.inj h).symm
      refine ⟨yb, hd, ?_, ?_⟩
      · dsimp only
        rw [finalizeData_eq]
      · dsimp only
        rw [finalizeData_eq]

/-- Claim C4: finalization hashes exactly (DSI2, compress K, compress Y_A,
compress Y_B) into a 64-byte digest split as `k1 = bytes[0:32]` and
`k2 = bytes[32:64]`, where K is the peer element times the own scalar; and,
the scalar action being associative over a commutative scalar product, the K
computed by each side equals `p * r_A * r_B`. -/
theorem c4_finalize_contract (P : Prims) (c : CPace P) (op ya yb : P.Point)
    (h64 : ∀ l, (P.hashFinalize l).length = 64)
    (hassoc : ∀ p a b, P.smul (P.smul p a) b = P.smul p (P.scalarMul a b))
    (hmc : ∀ a b, P.scalarMul a b = P.scalarMul b a) :
    (CPace.finalize P c op ya yb = .ok
        { k1 := (P.hashFinalize (dsi2Bytes ++ P.compress (P.smul op c.r)
                  ++ P.compress ya ++ P.compress yb)).take SHARED_KEY_BYTES
          k2 := (P.hashFinalize (dsi2Bytes ++ P.compress (P.smul op c.r)
                  ++ P.compress ya ++ P.compress yb)).drop SHARED_KEY_BYTES })
    ∧ (∀ sk, CPace.finalize P c op ya yb = .ok sk →
        sk.k1.length = 32 ∧ sk.k2.length = 32
        ∧ sk.k1 ++ sk.k2 = P.hashFinalize (CPace.finalizeData P c op ya yb))
    ∧ (∀ p rA rB, P.smul (P.smul p rA) rB = P.smul p (P.scalarMul rA rB)
        ∧ P.smul (P.smul p rB) rA = P.smul p (P.scalarMul rA rB)) := by
  refine ⟨?_, ?_, ?_⟩
  · unfold CPace.finalize
    rw [finalizeData_eq]
  · intro sk h
    unfold CPace.finalize at h
    obtain rfl := (Except.ok.inj h).symm
    refine ⟨?_, ?_, List.take_append_drop _ _⟩
    · simp [List.length_take, h64, SHARED_KEY_BYTES]
    · simp [List.length_drop, h64, SHARED_KEY_BYTES]
  · intro p rA rB
    exact ⟨hassoc p rA rB, by rw [hassoc p rB rA, hmc rB rA]⟩

/-- Claim C5: the incremental hash in generator derivation is fed, in this
exact order: DSI, password, the zero padding, the 16-byte session id, one
length byte then id_a, one length byte then id_b, then the associated data
raw with no length prefix; an absent associated data contributes nothing
(None agrees with Some empty). -/
theorem c5_hash_input_order (P : Prims) (sid pw ia ib r64 : List Nat)
    (ad : Option (List Nat)) :
    CPace.hashInput sid pw ia ib ad =
      dsi1Bytes ++ pw ++ List.replicate (padLen pw.length) 0 ++ sid
      ++ [ia.length % 256] ++ ia ++ [ib.length % 256] ++ ib ++ ad.getD []
    ∧ CPace.hashInput sid pw ia ib none = CPace.hashInput sid pw ia ib (some [])
    ∧ CPace.new P sid pw ia ib none r64 = CPace.new P sid pw ia ib (some []) r64 := by
  refine ⟨?_, rfl, rfl⟩
  have hmin : min (padLen pw.length) BLOCKBYTES = padLen pw.length :=
    Nat.min_eq_left (le_of_lt (padLen_lt pw.length))
  simp [CPace.hashInput, Hash.new, Hash.update, List.take_replicate, hmin]

/-- Claim C7: identities longer than 255 bytes make context creation — and
hence step1 and step2 — fail with `Error::Overflow`, for every choice of the
external primitives, so no hash is consulted; a 256-byte identity in
particular overflows, and identities of at most 255 bytes are accepted. -/
theorem c7_identifier_overflow (P : Prims) (sid pw ia ib pkt r64 : List Nat)
    (ad : Option (List Nat)) :
    (ia.length > 255 ∨ ib.length > 255 →
      CPace.new P sid pw ia ib ad r64
          = .error (.Overflow "Identifiers must be at most 255 bytes long")
        ∧ CPace.step1 P pw ia ib ad sid r64
          = .error (.Overflow "Identifiers must be at most 255 bytes long")
        ∧ CPace.step2 P pkt pw ia ib ad r64
          = .error (.Overflow "Identifiers must be at most 255 bytes long"))
    ∧ (ia.length = 256 ∨ ib.length = 256 →
        CPace.new P sid pw ia ib ad r64
          = .error (.Overflow "Identifiers must be at most 255 bytes long"))
    ∧ (ia.length ≤ 255 → ib.length ≤ 255 →
        ∃ ctx : CPace P, CPace.new P sid pw ia ib ad r64 = .ok ctx
          ∧ ctx.session_id = sid) := by
  have herr : ia.length > 255 ∨ ib.length > 255 →
      ∀ sid', CPace.new P sid' pw ia ib ad r64
        = .error (.Overflow "Identifiers must be at most 255 bytes long") := by
    intro h sid'
    unfold CPace.new
    rw [if_pos h]
  refine ⟨?_, ?_, ?_⟩
  · intro h
    refine ⟨herr h sid, ?_, ?_⟩
    · unfold CPace.step1
      rw [herr h sid]
    · unfold CPace.step2
      rw [herr h (pkt.take SESSION_ID_BYTES)]
  · intro h
    exact herr (by omega) sid
  · intro hia hib
    exact ⟨_, new_ok P sid pw ia ib ad r64 hia hib, rfl⟩

/-- Claim C8: the Step1 packet is exactly the 16-byte session id followed by
the 32-byte compressed initiator element (48 bytes); the Step2 packet is the
32-byte compressed responder element; and step2 takes its session id verbatim
from the first 16 bytes of the received Step1 packet. -/
theorem c8_packet_layout (P : Prims)
    (hclen : ∀ x, (P.compress x).length = 32)
    (pw ia ib sid r64 r64' pkt : List Nat) (ad : Option (List Nat))
    (hsid : sid.length = SESSION_ID_BYTES) :
    (SESSION_ID_BYTES = 16 ∧ STEP1_PACKET_BYTES = 48 ∧ STEP2_PACKET_BYTES = 32)
    ∧ (∀ out1 : Step1Out P, CPace.step1 P pw ia ib ad sid r64 = .ok out1 →
        out1.step1_packet = sid ++ P.compress out1.ctx.p
        ∧ out1.step1_packet.length = STEP1_PACKET_BYTES
        ∧ out1.step1_packet.take SESSION_ID_BYTES = sid
        ∧ out1.step1_packet.drop SESSION_ID_BYTES = P.compress out1.ctx.p)
    ∧ (∀ out2 : Step2Out P, CPace.step2 P pkt pw ia ib ad r64' = .ok out2 →
        out2.step2_packet.length = STEP2_PACKET_BYTES
        ∧ ∃ ctx : CPace P,
            CPace.new P (pkt.take SESSION_ID_BYTES) pw ia ib ad r64' = .ok ctx
            ∧ out2.step2_packet = P.compress ctx.p) := by
  refine ⟨⟨rfl, rfl, rfl⟩, ?_, ?_⟩
  · intro out1 h
    unfold CPace.step1 at h
    split at h
    · exact absurd h (by simp)
    · rename_i ctx hn
      obtain rfl := (Except.ok.inj h).symm
      unfold CPace.new at hn
      split at hn
      · exact absurd hn (by simp)
      · obtain rfl := (Except.ok.inj hn)
        refine ⟨rfl, ?_, List.take_left' hsid, List.drop_left' hsid⟩
        dsimp only
        rw [List.length_append, hsid, hclen]
        rfl
  · intro out2 h
    unfold CPace.step2 at h
    split at h
    · exact absurd h (by simp)
    · rename_i ctx hn
      split at h
      · exact absurd h (by simp)
      · rename_i ya hd
        simp only [CPace.finalize] at h
        obtain rfl := (Except.ok.inj h).symm
        exact ⟨hclen ctx.p, ctx, hn, rfl⟩

/-- Claim C10: step3 is a pure function of the retained context and the
received packet: repeated invocations on the same context and packet return
the same outcome, and two successful results carry identical keys. -/
theorem c10_step3_deterministic (P : Prims) (s : Step1Out P) (pkt : List Nat) :
    Step1Out.step3 P s pkt = Step1Out.step3 P s pkt
    ∧ (∀ r₁ r₂ : Except Error SharedKeys,
        Step1Out.step3 P s pkt = r₁ → Step1Out.step3 P s pkt = r₂ → r₁ = r₂)
    ∧ (∀ sk sk' : SharedKeys, Step1Out.step3 P s pkt = .ok sk →
        Step1Out.step3 P s pkt = .ok sk' → sk.k1 = sk'.k1 ∧ sk.k2 = sk'.k2) := by
  refine ⟨rfl, fun r₁ r₂ h₁ h₂ => h₁ ▸ h₂, fun sk sk' h₁ h₂ => ?_⟩
  rw [h₁] at h₂
  obtain rfl := Except.ok.inj h₂
  exact ⟨rfl, rfl⟩

/-! ## Concrete runs used by the hypothesis-bearing theorems -/

def toyCtx : CPace toyPrims := ⟨List.replicate 16 0, 1, 1⟩

def toyStep1Out : Step1Out toyPrims := ⟨toyCtx, List.replicate 16 0 ++ toyCompress 1⟩

/-- Concrete instantiation of the agreement theorem on the toy primitives. -/
theorem c1_agreement_witness :
    ∃ (out1 : Step1Out toyPrims) (out2 : Step2Out toyPrims) (sk : SharedKeys),
      CPace.step1 toyPrims [7] [1] [2] (some [3]) (List.replicate 16 9) [11] = .ok out1
      ∧ CPace.step2 toyPrims out1.step1_packet [7] [1] [2] (some [3]) [13] = .ok out2
      ∧ Step1Out.step3 toyPrims out1 out2.step2_packet = .ok sk
      ∧ sk.k1 = out2.shared_keys.k1 ∧ sk.k2 = out2.shared_keys.k2 :=
  c1_agreement toyPrims
    (by decide : ∀ x : ZMod 5, toyDecompress (toyCompress x) = some x)
    (by decide : ∀ p a b : ZMod 5, p * a * b = p * b * a)
    [7] [1] [2] (List.replicate 16 9) [11] [13] (some [3])
    (by decide) (by decide) (by decide)

/-- Concrete instantiation of the role-order theorem: a successful step3 run
on the toy primitives, with the stored element in the Y_A slot and the decoded
element in the Y_B slot. -/
theorem c3_role_order_witness :
    ∃ yb : ZMod 5,
      toyDecompress (toyCompress 2) = some yb
      ∧ (toyHash (CPace.finalizeData toyPrims toyCtx 2 toyCtx.p 2)).take SHARED_KEY_BYTES
          = (toyHash (dsi2Bytes ++ toyCompress (yb * toyCtx.r) ++ toyCompress toyCtx.p
              ++ toyCompress yb)).take SHARED_KEY_BYTES
      ∧ (toyHash (CPace.finalizeData toyPrims toyCtx 2 toyCtx.p 2)).drop SHARED_KEY_BYTES
          = (toyHash (dsi2Bytes ++ toyCompress (yb * toyCtx.r) ++ toyCompress toyCtx.p
              ++ toyCompress yb)).drop SHARED_KEY_BYTES :=
  (c3_role_order toyPrims).2 toyCtx (toyCompress 2)
    ⟨(toyHash (CPace.finalizeData toyPrims toyCtx 2 toyCtx.p 2)).take SHARED_KEY_BYTES,
     (toyHash (CPace.finalizeData toyPrims toyCtx 2 toyCtx.p 2)).drop SHARED_KEY_BYTES⟩
    rfl

/-- Concrete instantiation of the finalization contract on the toy primitives. -/
theorem c4_finalize_contract_witness :
    CPace.finalize toyPrims toyCtx 2 3 4 = .ok
      { k1 := (toyHash (dsi2Bytes ++ toyCompress (2 * toyCtx.r) ++ toyCompress 3
                ++ toyCompress 4)).take SHARED_KEY_BYTES
        k2 := (toyHash (dsi2Bytes ++ toyCompress (2 * toyCtx.r) ++ toyCompress 3
                ++ toyCompress 4)).drop SHARED_KEY_BYTES } :=
  (c4_finalize_contract toyPrims toyCtx 2 3 4
    (by intro l; simp [toyPrims, toyHash] : ∀ l, (toyPrims.hashFinalize l).length = 64)
    (by decide : ∀ p a b : ZMod 5, p * a * b = p * (a * b))
    (by decide : ∀ a b : ZMod 5, a * b = b * a)).1

/-- Concrete instantiation of the overflow theorem: a 256-byte identity is
rejected with `Overflow` and a 255-byte identity is accepted. -/
theorem c7_identifier_overflow_witness :
    CPace.new toyPrims [] [] (List.replicate 256 0) [] none []
      = .error (.Overflow "Identifiers must be at most 255 bytes long")
    ∧ ∃ ctx : CPace toyPrims,
        CPace.new toyPrims [] [] (List.replicate 255 0) [] none [] = .ok ctx
        ∧ ctx.session_id = [] :=
  ⟨((c7_identifier_overflow toyPrims [] [] (List.replicate 256 0) [] [] [] none).1
      (by simp)).1,
   (c7_identifier_overflow toyPrims [] [] (List.replicate 255 0) [] [] [] none).2.2
      (by simp) (by simp)⟩

/-- Concrete instantiation of the packet-layout theorem on the toy primitives. -/
theorem c8_packet_layout_witness :
    SESSION_ID_BYTES = 16 ∧ STEP1_PACKET_BYTES = 48 ∧ STEP2_PACKET_BYTES = 32 :=
  (c8_packet_layout toyPrims
    (by decide : ∀ x : ZMod 5, (toyCompress x).length = 32)
    [7] [1] [2] (List.replicate 16 9) [11] [13] [] none (by decide)).1

/-- Concrete instantiation of the step3-determinism theorem. -/
theorem c10_step3_deterministic_witness :
    (Except.error Error.InvalidPublicKey : Except Error SharedKeys)
      = Except.error Error.InvalidPublicKey :=
  (c10_step3_deterministic toyPrims toyStep1Out (List.replicate 32 1)).2.1
    (Except.error Error.InvalidPublicKey) (Except.error Error.InvalidPublicKey)
    (by rfl) (by rfl)
